import Mathlib

/-!
Verification of the inventory / point-of-sale core of `app.py`
(billaresv8): product catalog, restock-with-invoice engine, sale
register, invoice-batch deletion and the inventory-at-date
reconstruction, shallowly embedded over an explicit database state.

Money amounts (REAL columns) are modelled as rationals, quantities and
stock (INTEGER columns) as integers, timestamps as integers.  Python's
`round(x, n)` (round-half-to-even) is modelled by `pyRound`.
-/

namespace Billares

/-- A row of the `products` table (`id` surrogate key, `code` unique
business key, money columns as rationals). -/
structure Product where
  id : Int
  code : Option String
  name : String
  price : Rat
  stock : Int
  cost : Rat
  iva : Rat
  company : Option String
  deriving Repr, DecidableEq

/-- A row of the `sales` table. -/
structure Sale where
  product_id : Int
  qty : Int
  total : Rat
  sold_at : Int
  deriving Repr, DecidableEq

/-- A row of the `invoices` table. -/
structure Invoice where
  product_id : Int
  qty : Int
  invoice_total : Rat
  unit_cost : Rat
  new_price : Option Rat
  created_by : Option String
  batch_id : Option String
  company : Option String
  created_at : Int
  deriving Repr, DecidableEq

/-- The database state: the three business tables of `app.py`
(`users` plays no role in the claims considered here). -/
structure DB where
  products : List Product
  sales : List Sale
  invoices : List Invoice
  deriving Repr, DecidableEq

/-- Round a rational to the nearest integer, ties to even — the
rounding used by Python's builtin `round`. -/
def roundHalfEven (x : Rat) : Int :=
  let f : Int := Int.floor x
  let frac : Rat := x - (f : Rat)
  if frac < 1/2 then f
  else if 1/2 < frac then f + 1
  else if f % 2 = 0 then f else f + 1

/-- Python's `round(x, n)`: round to `n` decimal places, half to even. -/
def pyRound (x : Rat) (n : Nat) : Rat :=
  (roundHalfEven (x * (10 : Rat) ^ n) : Rat) / (10 : Rat) ^ n

/-- `SELECT ... FROM products WHERE id=?` + `fetchone()`: the first row
with the given id (the primary key makes it unique in real states). -/
def DB.findProduct (db : DB) (product_id : Int) : Option Product :=
  db.products.find? (fun p => p.id = product_id)

/-- `UPDATE products SET ... WHERE id=?`: apply `f` to every row with
the given id. -/
def DB.updateProduct (db : DB) (product_id : Int) (f : Product → Product) : DB :=
  { db with products := db.products.map (fun p => if p.id = product_id then f p else p) }

/-- Result of `register_sale`: `(ok, message, total)` together with the
database state after the call. -/
structure SaleResult where
  db : DB
  ok : Bool
  msg : String
  total : Rat
  deriving Repr, DecidableEq

/-- `register_sale(product_id, qty)` from `app.py`.  `now` stands for
`CURRENT_TIMESTAMP` on the inserted sale row.  `insertFails` injects a
failure into the `INSERT INTO sales` statement inside the transaction:
the `except` branch then rolls the whole transaction back, so the
database is returned unchanged. -/
def register_sale (db : DB) (product_id qty : Int) (now : Int)
    (insertFails : Bool) : SaleResult :=
  if qty ≤ 0 then
    ⟨db, false, "La cantidad debe ser mayor a 0.", 0⟩
  else
    match db.findProduct product_id with
    | none => ⟨db, false, "Producto no encontrado.", 0⟩
    | some row =>
      if row.stock < qty then
        ⟨db, false, "Stock insuficiente. Disponible: " ++ toString row.stock, 0⟩
      else
        let total := pyRound (row.price * (qty : Rat)) 2
        if insertFails then
          -- conn.rollback(): neither the stock decrement nor the sale
          -- row survives
          ⟨db, false, "Error al registrar venta: injected", 0⟩
        else
          let db' := db.updateProduct product_id
            (fun p => { p with stock := p.stock - qty })
          let db'' := { db' with
            sales := db'.sales ++ [⟨product_id, qty, total, now⟩] }
          ⟨db'', true, "Venta registrada de " ++ toString qty ++ " x " ++ row.name ++ ".", total⟩

/-- Result of an operation returning `(ok, message)` together with the
database state after the call. -/
structure OpResult where
  db : DB
  ok : Bool
  msg : String
  deriving Repr, DecidableEq

/-- `insert_invoice(...)` from `app.py`: append one row to `invoices`
(its own connection, its own commit). -/
def insert_invoice (db : DB) (product_id qty : Int) (invoice_total unit_cost : Rat)
    (new_price : Option Rat) (created_by : Option String)
    (batch_id company : Option String) (now : Int) : DB :=
  { db with invoices := db.invoices ++
      [⟨product_id, qty, invoice_total, unit_cost, new_price, created_by,
        batch_id, company, now⟩] }

/-- `restock_with_invoice(product_id, qty, invoice_total, new_price)`
from `app.py`.  `creator` is the logged-in user, `now` the insert
timestamp.  The stock/cost/price update is committed first; only then,
on a fresh connection, is the invoice row inserted.  `insertFails`
injects a failure into that second step: the function raises after the
stock commit, so the update survives while no invoice row is written. -/
def restock_with_invoice (db : DB) (product_id qty : Int)
    (invoice_total new_price : Option Rat) (creator : Option String) (now : Int)
    (insertFails : Bool) : OpResult :=
  if qty ≤ 0 then
    ⟨db, false, "La cantidad debe ser mayor a 0."⟩
  else if invoice_total.any (fun t => t < 0) then
    ⟨db, false, "El valor de la factura no puede ser negativo."⟩
  else if new_price.any (fun np => np < 0) then
    ⟨db, false, "El precio de venta no puede ser negativo."⟩
  else
    match db.findProduct product_id with
    | none => ⟨db, false, "Producto no encontrado."⟩
    | some row =>
      let new_stock := row.stock + qty
      let unit_cost : Option Rat :=
        match invoice_total with
        | some t => if 0 < qty then some (pyRound (t / (qty : Rat)) 4) else none
        | none => none
      -- single UPDATE: stock, optionally cost, optionally price, then commit
      let db1 := db.updateProduct product_id (fun p =>
        { p with
          stock := new_stock
          cost := match unit_cost with | some c => c | none => p.cost
          price := match new_price with | some np => np | none => p.price })
      -- second transaction: the invoice row.  (The currency-formatted
      -- invoice suffix of the source's success message is not modelled;
      -- the message keeps the "Stock actualizado a {new_stock}." core.)
      match invoice_total, unit_cost with
      | some t, some c =>
        if insertFails then
          -- the exception escapes restock_with_invoice; db1 is already
          -- committed
          ⟨db1, false, "insert_invoice raised"⟩
        else
          let db2 := insert_invoice db1 product_id qty t c new_price creator none none now
          ⟨db2, true, "Stock actualizado a " ++ toString new_stock ++ "."⟩
      | _, _ =>
        ⟨db1, true, "Stock actualizado a " ++ toString new_stock ++ "."⟩

/-- `delete_product(product_id)` from `app.py`: a bare
`DELETE FROM products WHERE id=?` (foreign keys are not enabled on the
connection, so the statement never fails on dependents). -/
def delete_product (db : DB) (product_id : Int) : OpResult :=
  ⟨{ db with products := db.products.filter (fun p => p.id ≠ product_id) },
   true, "Producto eliminado permanentemente."⟩

/-- One pass of the stock-reversal loop of `delete_invoice_batch`: for
each batch line, re-read the product and set
`stock := max (stock - qty) 0`. -/
def revertStock (db : DB) (lines : List Invoice) : DB :=
  lines.foldl
    (fun acc ln =>
      match acc.findProduct ln.product_id with
      | some cur =>
        acc.updateProduct ln.product_id
          (fun p => { p with stock := max (cur.stock - ln.qty) 0 })
      | none => acc)
    db

/-- `delete_invoice_batch(batch_id, adjust_stock)` from `app.py`. -/
def delete_invoice_batch (db : DB) (batch_id : String) (adjust_stock : Bool) :
    OpResult :=
  if batch_id = "" then
    ⟨db, false, "Batch ID inválido."⟩
  else
    let lines := db.invoices.filter (fun i => i.batch_id = some batch_id)
    if lines = [] then
      ⟨db, false, "No se encontraron líneas para ese lote."⟩
    else
      let db1 := if adjust_stock then revertStock db lines else db
      let db2 := { db1 with
        invoices := db1.invoices.filter (fun i => i.batch_id ≠ some batch_id) }
      ⟨db2, true, "Lote " ++ batch_id ++ " eliminado correctamente y stock revertido."⟩

/-- `COALESCE(SUM(qty),0)` over `sales WHERE sold_at > cutoff AND
product_id = pid` — the `sales_after` dictionary of `page_inventory`. -/
def salesQtyAfter (db : DB) (product_id : Int) (cutoff : Int) : Int :=
  ((db.sales.filter (fun s => s.product_id = product_id ∧ cutoff < s.sold_at)).map
    (fun s => s.qty)).sum

/-- `COALESCE(SUM(qty),0)` over `invoices WHERE created_at > cutoff AND
product_id = pid` — the `invoices_after` dictionary of `page_inventory`. -/
def invoiceQtyAfter (db : DB) (product_id : Int) (cutoff : Int) : Int :=
  ((db.invoices.filter (fun i => i.product_id = product_id ∧ cutoff < i.created_at)).map
    (fun i => i.qty)).sum

/-- The per-product reconstruction of `page_inventory`:
`stock_at_cut = max(cur_stock + sold_after - restock_after, 0)`. -/
def stockAtCutoff (db : DB) (p : Product) (cutoff : Int) : Int :=
  max (p.stock + salesQtyAfter db p.id cutoff - invoiceQtyAfter db p.id cutoff) 0

/-- An operation of the restock/sale workflow, with the inputs the UI
would pass. -/
inductive Op where
  | restock (product_id qty : Int) (invoice_total new_price : Option Rat)
      (creator : Option String) (now : Int)
  | sale (product_id qty : Int) (now : Int)
  deriving Repr, DecidableEq

/-- Apply one operation (no injected failures) to the database. -/
def applyOp (db : DB) : Op → DB
  | .restock pid qty inv np creator now =>
    (restock_with_invoice db pid qty inv np creator now false).db
  | .sale pid qty now =>
    (register_sale db pid qty now false).db

/-- Apply a sequence of operations left to right. -/
def applyOps (db : DB) (ops : List Op) : DB :=
  ops.foldl applyOp db

/-- The `CHECK(stock>=0)` data-model invariant: every product row has a
non-negative stock. -/
def DB.stocksNonneg (db : DB) : Prop :=
  ∀ p ∈ db.products, 0 ≤ p.stock

/-- The `PRIMARY KEY` invariant: product ids are pairwise distinct. -/
def DB.idsNodup (db : DB) : Prop :=
  (db.products.map Product.id).Nodup

instance (db : DB) : Decidable db.stocksNonneg :=
  inferInstanceAs (Decidable (∀ p ∈ db.products, 0 ≤ p.stock))

instance (db : DB) : Decidable db.idsNodup :=
  inferInstanceAs (Decidable (db.products.map Product.id).Nodup)

/-! Concrete states used to instantiate the theorems. -/

/-- A sample product: id 1, price 7, stock 50, cost 3. -/
def prodA : Product := ⟨1, some "A", "prodA", 7, 50, 3, 0, none⟩

/-- A second sample product: id 2, stock 8. -/
def prodB : Product := ⟨2, none, "prodB", 1, 8, 0, 0, none⟩

/-- A third sample product: id 3, stock 1. -/
def prodC : Product := ⟨3, none, "prodC", 1, 1, 0, 0, none⟩

/-- A one-product database with empty ledgers. -/
def dbOne : DB := ⟨[prodA], [], []⟩

/-- Database for the reconstruction example: current stock 50, one sale
of 10 units and one invoice line of 5 units, both dated (100) after the
cutoff (50). -/
def dbRecon : DB :=
  ⟨[prodA], [⟨1, 10, 70, 100⟩], [⟨1, 5, 15, 3, none, none, none, none, 100⟩]⟩

/-- Database for the batch-deletion example: batch "L1" has three lines
of qty 5, 10, 2 against the three distinct products; an unrelated batch
"L2" line must survive the deletion. -/
def dbBatch : DB :=
  ⟨[prodA, prodB, prodC], [],
   [⟨1, 5, 0, 0, none, none, some "L1", none, 0⟩,
    ⟨2, 10, 0, 0, none, none, some "L1", none, 0⟩,
    ⟨3, 2, 0, 0, none, none, some "L1", none, 0⟩,
    ⟨1, 9, 0, 0, none, none, some "L2", none, 0⟩]⟩

/-- Database where product 1 is referenced by a sale and product 2 is
free of dependents. -/
def dbDeps : DB := ⟨[prodA, prodB], [⟨1, 2, 14, 0⟩], []⟩

/-- A sample operation sequence: a restock followed by an accepted and a
rejected sale. -/
def opsExample : List Op :=
  [Op.restock 1 5 (some 20) none (some "u") 3, Op.sale 1 30 4, Op.sale 1 100 5]

/-! Helper lemmas about lookup and row update. -/

theorem find_update_list (l : List Product) (pid : Int) (f : Product → Product)
    (hf : ∀ p, (f p).id = p.id) (row : Product)
    (h : l.find? (fun p => p.id = pid) = some row) :
    (l.map (fun p => if p.id = pid then f p else p)).find? (fun p => p.id = pid)
      = some (f row) := by
  induction l with
  | nil => simp at h
  | cons a l ih =>
    by_cases ha : a.id = pid
    · rw [List.find?_cons_of_pos _ (by simp [ha])] at h
      cases h
      rw [List.map_cons, if_pos ha, List.find?_cons_of_pos _ (by simp [hf, ha])]
    · rw [List.find?_cons_of_neg _ (by simp [ha])] at h
      rw [List.map_cons, if_neg ha, List.find?_cons_of_neg _ (by simp [ha])]
      exact ih h

theorem find_update_view {A : Type} (l : List Product) (pid : Int) (f : Product → Product)
    (hid : ∀ p, (f p).id = p.id) (g : Product → A) (C : A) (hg : ∀ p, g (f p) = C)
    (row : Product) (h : l.find? (fun p => p.id = pid) = some row) :
    ((l.map (fun p => if p.id = pid then f p else p)).find? (fun p => p.id = pid)).map g
      = some C := by
  rw [find_update_list l pid f hid row h]
  simp [hg]

theorem stocksNonneg_update (db : DB) (pid : Int) (f : Product → Product)
    (h0 : db.stocksNonneg) (hf : ∀ p ∈ db.products, p.id = pid → 0 ≤ (f p).stock) :
    (db.updateProduct pid f).stocksNonneg := by
  intro p' hp'
  unfold DB.updateProduct at hp'
  simp only [List.mem_map] at hp'
  obtain ⟨p, hp, rfl⟩ := hp'
  by_cases h : p.id = pid
  · rw [if_pos h]; exact hf p hp h
  · rw [if_neg h]; exact h0 p hp

theorem map_id_update (db : DB) (pid : Int) (f : Product → Product)
    (hf : ∀ p, (f p).id = p.id) :
    (db.updateProduct pid f).products.map Product.id = db.products.map Product.id := by
  unfold DB.updateProduct
  simp only [List.map_map]
  exact List.map_congr_left (fun a _ => by by_cases h : a.id = pid <;> simp [h, hf])

theorem insert_invoice_stocksNonneg (db : DB) (pid qty : Int) (t c : Rat)
    (np : Option Rat) (creator : Option String) (bid comp : Option String) (now : Int)
    (h : db.stocksNonneg) :
    (insert_invoice db pid qty t c np creator bid comp now).stocksNonneg := h

/-! Preservation lemmas used by the invariant over operation sequences. -/

theorem register_sale_stocksNonneg (db : DB) (pid qty now : Int) (fail : Bool)
    (hnd : db.idsNodup) (h0 : db.stocksNonneg) :
    ((register_sale db pid qty now fail).db).stocksNonneg := by
  unfold register_sale
  by_cases hq : qty ≤ 0
  · simpa [hq] using h0
  · cases hfind : db.findProduct pid with
    | none => simpa [hq, hfind] using h0
    | some row =>
      by_cases hlt : row.stock < qty
      · simpa [hq, hfind, hlt] using h0
      · cases fail with
        | true => simpa [hq, hfind, hlt] using h0
        | false =>
          simp only [if_neg hq, hfind, if_neg hlt, Bool.false_eq_true, if_false]
          have hrow : row ∈ db.products := List.mem_of_find?_eq_some hfind
          have hrowid : row.id = pid := by
            have := List.find?_some hfind
            simpa using this
          intro p' hp'
          have hmem : p' ∈ (db.updateProduct pid
              (fun p => { p with stock := p.stock - qty })).products := hp'
          refine stocksNonneg_update db pid _ h0 ?_ p' hmem
          intro p hp hpid
          have : p = row := List.inj_on_of_nodup_map hnd hp hrow (by rw [hpid, hrowid])
          subst this
          simp only
          omega

theorem register_sale_map_id (db : DB) (pid qty now : Int) (fail : Bool) :
    ((register_sale db pid qty now fail).db).products.map Product.id
      = db.products.map Product.id := by
  unfold register_sale
  by_cases hq : qty ≤ 0
  · simp [hq]
  · cases hfind : db.findProduct pid with
    | none => simp [hq, hfind]
    | some row =>
      by_cases hlt : row.stock < qty
      · simp [hq, hfind, hlt]
      · cases fail with
        | true => simp [hq, hfind, hlt]
        | false =>
          simp only [if_neg hq, hfind, if_neg hlt, Bool.false_eq_true, if_false]
          exact map_id_update db pid _ (fun p => rfl)

theorem restock_stocksNonneg (db : DB) (pid qty : Int) (inv np : Option Rat)
    (creator : Option String) (now : Int) (fail : Bool) (h0 : db.stocksNonneg) :
    ((restock_with_invoice db pid qty inv np creator now fail).db).stocksNonneg := by
  unfold restock_with_invoice
  split
  · exact h0
  split
  · exact h0
  split
  · exact h0
  split
  · exact h0
  next hqty hinv hnp _ row hfind =>
    have hq' : 0 < qty := by omega
    have hrow : row ∈ db.products := List.mem_of_find?_eq_some hfind
    have hstock : 0 ≤ row.stock := h0 row hrow
    cases inv with
    | none =>
      exact stocksNonneg_update db pid _ h0
        (fun p _ _ => by show 0 ≤ row.stock + qty; omega)
    | some T =>
      simp only [if_pos hq']
      cases fail with
      | true =>
        exact stocksNonneg_update db pid _ h0
          (fun p _ _ => by show 0 ≤ row.stock + qty; omega)
      | false =>
        refine insert_invoice_stocksNonneg _ pid qty T _ np creator none none now ?_
        exact stocksNonneg_update db pid _ h0
          (fun p _ _ => by show 0 ≤ row.stock + qty; omega)

theorem restock_map_id (db : DB) (pid qty : Int) (inv np : Option Rat)
    (creator : Option String) (now : Int) (fail : Bool) :
    ((restock_with_invoice db pid qty inv np creator now fail).db).products.map Product.id
      = db.products.map Product.id := by
  unfold restock_with_invoice
  split
  · rfl
  split
  · rfl
  split
  · rfl
  split
  · rfl
  next hqty hinv hnp _ row hfind =>
    have hq' : 0 < qty := by omega
    cases inv with
    | none => exact map_id_update db pid _ (fun p => rfl)
    | some T =>
      simp only [if_pos hq']
      cases fail with
      | true => exact map_id_update db pid _ (fun p => rfl)
      | false =>
        show (insert_invoice _ pid qty T _ np creator none none now).products.map Product.id = _
        exact map_id_update db pid _ (fun p => rfl)

theorem applyOp_stocksNonneg (db : DB) (op : Op) (hnd : db.idsNodup)
    (h0 : db.stocksNonneg) : (applyOp db op).stocksNonneg := by
  cases op with
  | restock pid qty inv np creator now =>
    exact restock_stocksNonneg db pid qty inv np creator now false h0
  | sale pid qty now => exact register_sale_stocksNonneg db pid qty now false hnd h0

theorem applyOp_idsNodup (db : DB) (op : Op) (hnd : db.idsNodup) :
    (applyOp db op).idsNodup := by
  cases op with
  | restock pid qty inv np creator now =>
    show ((restock_with_invoice db pid qty inv np creator now false).db).idsNodup
    unfold DB.idsNodup
    rw [restock_map_id]
    exact hnd
  | sale pid qty now =>
    show ((register_sale db pid qty now false).db).idsNodup
    unfold DB.idsNodup
    rw [register_sale_map_id]
    exact hnd

/-! Lemmas about the stock-reversal loop of `delete_invoice_batch`. -/

theorem revertStock_invoices (db : DB) (lines : List Invoice) :
    (revertStock db lines).invoices = db.invoices := by
  induction lines generalizing db with
  | nil => rfl
  | cons ln rest ih =>
    unfold revertStock
    rw [List.foldl_cons]
    cases hfind : db.findProduct ln.product_id with
    | none => exact ih db
    | some cur => exact ih _

theorem revertStock_sales (db : DB) (lines : List Invoice) :
    (revertStock db lines).sales = db.sales := by
  induction lines generalizing db with
  | nil => rfl
  | cons ln rest ih =>
    unfold revertStock
    rw [List.foldl_cons]
    cases hfind : db.findProduct ln.product_id with
    | none => exact ih db
    | some cur => exact ih _

theorem revertStock_step_products (db : DB) (ln : Invoice) (hnd : db.idsNodup) :
    (match db.findProduct ln.product_id with
      | some cur => db.updateProduct ln.product_id
          (fun p => { p with stock := max (cur.stock - ln.qty) 0 })
      | none => db).products
      = db.products.map (fun p =>
          if p.id = ln.product_id then { p with stock := max (p.stock - ln.qty) 0 } else p) := by
  cases hfind : db.findProduct ln.product_id with
  | none =>
    have hnone : ∀ p ∈ db.products, ¬ p.id = ln.product_id := by
      intro p hp
      have := List.find?_eq_none.mp hfind p hp
      simpa using this
    calc db.products = db.products.map (fun p => p) := by simp
      _ = _ := List.map_congr_left (fun p hp => by rw [if_neg (hnone p hp)])
  | some cur =>
    have hcur : cur ∈ db.products := List.mem_of_find?_eq_some hfind
    have hcurid : cur.id = ln.product_id := by simpa using List.find?_some hfind
    unfold DB.updateProduct
    refine List.map_congr_left (fun p hp => ?_)
    by_cases h : p.id = ln.product_id
    · have : p = cur := List.inj_on_of_nodup_map hnd hp hcur (by rw [h, hcurid])
      subst this
      simp [h]
    · simp [h]

theorem revertStock_step_idsNodup (db : DB) (ln : Invoice) (hnd : db.idsNodup) :
    (match db.findProduct ln.product_id with
      | some cur => db.updateProduct ln.product_id
          (fun p => { p with stock := max (cur.stock - ln.qty) 0 })
      | none => db).idsNodup := by
  cases hfind : db.findProduct ln.product_id with
  | none => exact hnd
  | some cur =>
    show ((db.updateProduct ln.product_id
        (fun p => { p with stock := max (cur.stock - ln.qty) 0 })).products.map
          Product.id).Nodup
    rw [map_id_update db ln.product_id
      (fun p => { p with stock := max (cur.stock - ln.qty) 0 }) (fun p => rfl)]
    exact hnd

theorem revertStock_products (db : DB) (lines : List Invoice) (hnd : db.idsNodup) :
    (revertStock db lines).products
      = db.products.map (fun p =>
          lines.foldl (fun q ln =>
            if q.id = ln.product_id then { q with stock := max (q.stock - ln.qty) 0 } else q) p) := by
  induction lines generalizing db with
  | nil => simp [revertStock]
  | cons ln rest ih =>
    unfold revertStock
    simp only [List.foldl_cons]
    show (revertStock (match db.findProduct ln.product_id with
        | some cur => db.updateProduct ln.product_id
            (fun p => { p with stock := max (cur.stock - ln.qty) 0 })
        | none => db) rest).products = _
    rw [ih _ (revertStock_step_idsNodup db ln hnd),
      revertStock_step_products db ln hnd, List.map_map]
    rfl

/-! Claim theorems. -/

/-- C1: the inventory-at-date reconstruction returns
`stockAtCutoff = max(0, S + salesQtyAfter(cutoff) - invoiceQtyAfter(cutoff))`,
where the two deltas sum the quantities of the sales (resp. invoice
lines) of the product dated strictly after the cutoff; when no sale or
invoice of the product is dated after the cutoff, it returns the current
stock `S`. -/
theorem inventory_at_date (db : DB) (p : Product) (cutoff : Int) (hS : 0 ≤ p.stock) :
    stockAtCutoff db p cutoff
      = max 0 (p.stock
          + ((db.sales.filter
                (fun s => s.product_id = p.id ∧ cutoff < s.sold_at)).map Sale.qty).sum
          - ((db.invoices.filter
                (fun i => i.product_id = p.id ∧ cutoff < i.created_at)).map Invoice.qty).sum)
    ∧ ((∀ s ∈ db.sales, s.product_id = p.id → s.sold_at ≤ cutoff) →
       (∀ i ∈ db.invoices, i.product_id = p.id → i.created_at ≤ cutoff) →
       stockAtCutoff db p cutoff = p.stock) := by
  constructor
  · unfold stockAtCutoff salesQtyAfter invoiceQtyAfter
    rw [max_comm]
  · intro h1 h2
    unfold stockAtCutoff salesQtyAfter invoiceQtyAfter
    rw [List.filter_eq_nil_iff.mpr, List.filter_eq_nil_iff.mpr]
    · simpa using hS
    · intro i hi
      simpa using fun hpid => not_lt.mpr (h2 i hi hpid)
    · intro s hs
      simpa using fun hpid => not_lt.mpr (h1 s hs hpid)

/-- Witness for C1: with current stock 50, a sale of 10 and an invoice
line of 5 both dated after the cutoff, the reconstruction returns 55;
with no sales or invoices after the cutoff it returns the current
stock 50. -/
theorem inventory_at_date_witness :
    stockAtCutoff dbRecon prodA 50 = 55 ∧ stockAtCutoff dbOne prodA 50 = 50 :=
  ⟨by decide,
   (inventory_at_date dbOne prodA 50 (by decide)).2 (by decide) (by decide)⟩

/-- C2: for a restock with invoice total `T ≥ 0` and quantity `Q > 0`
on an existing product (and a non-negative optional new price), the
product's cost afterwards is exactly `round(T / Q, 4)`. -/
theorem restock_unit_cost (db : DB) (pid qty now : Int) (T : Rat) (np : Option Rat)
    (creator : Option String) (fail : Bool) (row : Product)
    (hfind : db.findProduct pid = some row) (hq : 0 < qty) (hT : 0 ≤ T)
    (hnp : ∀ x ∈ np, 0 ≤ x) :
    ((restock_with_invoice db pid qty (some T) np creator now fail).db.findProduct pid).map
        Product.cost
      = some (pyRound (T / (qty : Rat)) 4) := by
  unfold restock_with_invoice
  rw [if_neg (by omega)]
  have h1 : (Option.some T).any (fun t => decide (t < 0)) = false := by
    simp [not_lt.mpr hT]
  have h2 : np.any (fun x => decide (x < 0)) = false := by
    cases np with
    | none => rfl
    | some x => simpa using not_lt.mpr (hnp x rfl)
  rw [h1, h2, hfind]
  simp only [if_pos hq, Bool.false_eq_true, if_false]
  cases fail <;> cases np
  case false.none =>
    rw [if_neg Bool.false_ne_true]
    simp only [insert_invoice, DB.findProduct, DB.updateProduct]
    exact find_update_view db.products pid
      (fun p => { p with stock := row.stock + qty, cost := pyRound (T / (qty : Rat)) 4 })
      (fun p => rfl) Product.cost _ (fun p => rfl) row hfind
  case false.some v =>
    rw [if_neg Bool.false_ne_true]
    simp only [insert_invoice, DB.findProduct, DB.updateProduct]
    exact find_update_view db.products pid
      (fun p => { p with stock := row.stock + qty, cost := pyRound (T / (qty : Rat)) 4, price := v })
      (fun p => rfl) Product.cost _ (fun p => rfl) row hfind
  case true.none =>
    rw [if_pos rfl]
    simp only [insert_invoice, DB.findProduct, DB.updateProduct]
    exact find_update_view db.products pid
      (fun p => { p with stock := row.stock + qty, cost := pyRound (T / (qty : Rat)) 4 })
      (fun p => rfl) Product.cost _ (fun p => rfl) row hfind
  case true.some v =>
    rw [if_pos rfl]
    simp only [insert_invoice, DB.findProduct, DB.updateProduct]
    exact find_update_view db.products pid
      (fun p => { p with stock := row.stock + qty, cost := pyRound (T / (qty : Rat)) 4, price := v })
      (fun p => rfl) Product.cost _ (fun p => rfl) row hfind

/-- Witness for C2: restocking 7 units with invoice total 22 sets the
cost to `round(22/7, 4) = 3.1429`. -/
theorem restock_unit_cost_witness :
    ((restock_with_invoice dbOne 1 7 (some 22) none (some "u") 5 false).db.findProduct 1).map
      Product.cost = some (31429/10000 : Rat) := by
  have h := restock_unit_cost dbOne 1 7 5 22 none (some "u") false prodA
    (by decide) (by decide) (by decide) (fun x hx => (Option.not_mem_none x hx).elim)
  rw [h]
  norm_num [pyRound, roundHalfEven]

/-- C3 (amended): in `restock_with_invoice` the stock/cost/price update
is committed in its own transaction before the invoice insert, which
runs on a fresh connection; when the invoice insert fails the stock
increment and cost update persist while no invoice row is appended, so
the two writes are not atomic. -/
theorem restock_invoice_insert_failure (db : DB) (pid qty now : Int) (T : Rat)
    (np : Option Rat) (creator : Option String) (row : Product)
    (hfind : db.findProduct pid = some row) (hq : 0 < qty) (hT : 0 ≤ T)
    (hnp : ∀ x ∈ np, 0 ≤ x) :
    (restock_with_invoice db pid qty (some T) np creator now true).ok = false
    ∧ (restock_with_invoice db pid qty (some T) np creator now true).db.invoices = db.invoices
    ∧ (restock_with_invoice db pid qty (some T) np creator now true).db.sales = db.sales
    ∧ ((restock_with_invoice db pid qty (some T) np creator now true).db.findProduct pid).map
        Product.stock = some (row.stock + qty) := by
  have h1 : (Option.some T).any (fun t => decide (t < 0)) = false := by
    simp [not_lt.mpr hT]
  have h2 : np.any (fun x => decide (x < 0)) = false := by
    cases np with
    | none => rfl
    | some x => simpa using not_lt.mpr (hnp x rfl)
  unfold restock_with_invoice
  rw [if_neg (by omega), h1, h2, hfind]
  simp only [if_pos hq, Bool.false_eq_true, if_false]
  cases np
  case none =>
    simp only [if_true]
    refine ⟨trivial, rfl, rfl, ?_⟩
    simp only [DB.findProduct, DB.updateProduct]
    exact find_update_view db.products pid
      (fun p => { p with stock := row.stock + qty, cost := pyRound (T / (qty : Rat)) 4 })
      (fun p => rfl) Product.stock _ (fun p => rfl) row hfind
  case some v =>
    simp only [if_true]
    refine ⟨trivial, rfl, rfl, ?_⟩
    simp only [DB.findProduct, DB.updateProduct]
    exact find_update_view db.products pid
      (fun p => { p with stock := row.stock + qty, cost := pyRound (T / (qty : Rat)) 4, price := v })
      (fun p => rfl) Product.stock _ (fun p => rfl) row hfind

/-- Witness for C3 (amended): on a product with stock 50, a failing
invoice insert still leaves the committed stock 55 and no invoice row. -/
theorem restock_invoice_insert_failure_witness :
    (restock_with_invoice dbOne 1 5 (some 20) none none 9 true).ok = false
    ∧ (restock_with_invoice dbOne 1 5 (some 20) none none 9 true).db.invoices = dbOne.invoices
    ∧ (restock_with_invoice dbOne 1 5 (some 20) none none 9 true).db.sales = dbOne.sales
    ∧ ((restock_with_invoice dbOne 1 5 (some 20) none none 9 true).db.findProduct 1).map
        Product.stock = some (prodA.stock + 5) :=
  restock_invoice_insert_failure dbOne 1 5 9 20 none none prodA
    (by decide) (by decide) (by decide) (fun x hx => (Option.not_mem_none x hx).elim)

/-- C3 (counterexample): with stock 50 and a restock of 5 units with
invoice total 20 whose invoice insert fails, the database is changed —
the stock is already 55 while no invoice row exists — refuting the
claim that a failing invoice insert leaves the stock unchanged. -/
theorem restock_atomicity_counterexample :
    (restock_with_invoice dbOne 1 5 (some 20) none none 9 true).db ≠ dbOne
    ∧ ((restock_with_invoice dbOne 1 5 (some 20) none none 9 true).db.findProduct 1).map
        Product.stock = some 55
    ∧ (dbOne.findProduct 1).map Product.stock = some 50
    ∧ (restock_with_invoice dbOne 1 5 (some 20) none none 9 true).db.invoices = [] := by
  decide

/-- C4: `register_sale` is all-or-nothing — when the sale insert inside
the transaction fails, the rollback leaves the whole database unchanged
and the operation reports failure. -/
theorem register_sale_all_or_nothing (db : DB) (pid qty now : Int) :
    (register_sale db pid qty now true).db = db
      ∧ (register_sale db pid qty now true).ok = false := by
  unfold register_sale
  by_cases hq : qty ≤ 0
  · simp [hq]
  · cases hfind : db.findProduct pid with
    | none => simp [hq, hfind]
    | some row => by_cases hlt : row.stock < qty <;> simp [hq, hfind, hlt]

/-- C5: starting from a state with pairwise-distinct product ids (the
primary key) and non-negative stocks, every sequence of restock and
sale operations keeps every product's stock non-negative. -/
theorem stock_never_negative (db : DB) (ops : List Op)
    (hnd : db.idsNodup) (h0 : db.stocksNonneg) :
    (applyOps db ops).stocksNonneg := by
  induction ops generalizing db with
  | nil => exact h0
  | cons op ops ih =>
    exact ih (applyOp db op) (applyOp_idsNodup db op hnd) (applyOp_stocksNonneg db op hnd h0)

/-- Witness for C5: a concrete restock/sale/oversell sequence keeps
stocks non-negative. -/
theorem stock_never_negative_witness :
    dbOne.idsNodup ∧ dbOne.stocksNonneg ∧ (applyOps dbOne opsExample).stocksNonneg :=
  ⟨by decide, by decide, stock_never_negative dbOne opsExample (by decide) (by decide)⟩

/-- C6: a sale of more units than are in stock is rejected with a
message reporting the available quantity, and the database — products
and sales tables included — is unchanged. -/
theorem register_sale_insufficient (db : DB) (pid qty now : Int) (fail : Bool)
    (row : Product) (hfind : db.findProduct pid = some row)
    (hs : 0 ≤ row.stock) (hlt : row.stock < qty) :
    register_sale db pid qty now fail
      = ⟨db, false, "Stock insuficiente. Disponible: " ++ toString row.stock, 0⟩ := by
  unfold register_sale
  rw [if_neg (by omega), hfind]
  simp [hlt]

/-- Witness for C6: selling 60 units with 50 in stock fails, reports 50
available and leaves the database unchanged. -/
theorem register_sale_insufficient_witness :
    register_sale dbOne 1 60 99 false
      = ⟨dbOne, false, "Stock insuficiente. Disponible: " ++ toString (50 : Int), 0⟩ :=
  register_sale_insufficient dbOne 1 60 99 false prodA (by decide) (by decide) (by decide)

/-- C7: a successful sale decrements the product's stock by exactly
`qty`, appends exactly one Sale row, and returns
`total = round(price * qty, 2)` computed from the product's price at the
time of the sale. -/
theorem register_sale_success (db : DB) (pid qty now : Int) (row : Product)
    (hfind : db.findProduct pid = some row) (hq : 0 < qty) (hstock : qty ≤ row.stock) :
    register_sale db pid qty now false
      = ⟨⟨db.products.map (fun p => if p.id = pid then { p with stock := p.stock - qty } else p),
          db.sales ++ [⟨pid, qty, pyRound (row.price * (qty : Rat)) 2, now⟩],
          db.invoices⟩,
         true, "Venta registrada de " ++ toString qty ++ " x " ++ row.name ++ ".",
         pyRound (row.price * (qty : Rat)) 2⟩ := by
  unfold register_sale
  rw [if_neg (by omega), hfind]
  simp [not_lt.mpr hstock, DB.updateProduct]

/-- Witness for C7: selling 3 units at price 7 yields total 21, stock
47 and one Sale row. -/
theorem register_sale_success_witness :
    (register_sale dbOne 1 3 99 false).total = 21
    ∧ (register_sale dbOne 1 3 99 false).db.sales = [⟨1, 3, 21, 99⟩]
    ∧ ((register_sale dbOne 1 3 99 false).db.findProduct 1).map Product.stock = some 47 := by
  have h := register_sale_success dbOne 1 3 99 prodA (by decide) (by decide) (by decide)
  rw [h]
  refine ⟨by norm_num [prodA, pyRound, roundHalfEven], ?_, ?_⟩
  · norm_num [dbOne, prodA, pyRound, roundHalfEven]
  · norm_num [dbOne, prodA, DB.findProduct, List.find?]

/-- C8: a restock with neither invoice total nor new price touches only
the stock (+qty): cost and price are unchanged, and the sales and
invoices tables are untouched. -/
theorem restock_no_invoice_frame (db : DB) (pid qty now : Int) (creator : Option String)
    (fail : Bool) (row : Product) (hfind : db.findProduct pid = some row) (hq : 0 < qty) :
    restock_with_invoice db pid qty none none creator now fail
      = ⟨⟨db.products.map (fun p => if p.id = pid then { p with stock := row.stock + qty } else p),
          db.sales, db.invoices⟩,
         true, "Stock actualizado a " ++ toString (row.stock + qty) ++ "."⟩ := by
  unfold restock_with_invoice
  rw [if_neg (by omega), hfind]
  simp [DB.updateProduct]

/-- Witness for C8: restocking 20 units with no invoice total and no
new price yields stock 70 with cost, price and the ledgers unchanged. -/
theorem restock_no_invoice_frame_witness :
    restock_with_invoice dbOne 1 20 none none (some "u") 5 false
      = ⟨⟨[{ prodA with stock := 70 }], [], []⟩, true, "Stock actualizado a 70."⟩ := by
  have h := restock_no_invoice_frame dbOne 1 20 5 (some "u") false prodA (by decide) (by decide)
  rw [h]
  decide

/-- C9: deleting an existing invoice batch with stock reversal enabled
(on a database with pairwise-distinct product ids) succeeds, removes
exactly the invoice rows of that batch, leaves the sales untouched, and
updates each product by subtracting each batch line's qty from its
current stock, floored at 0 at each step. -/
theorem delete_invoice_batch_reverses (db : DB) (bid : String)
    (hnd : db.idsNodup) (hbid : ¬ bid = "")
    (hne : ¬ db.invoices.filter (fun i => i.batch_id = some bid) = []) :
    (delete_invoice_batch db bid true).ok = true
    ∧ (delete_invoice_batch db bid true).db.invoices
        = db.invoices.filter (fun i => i.batch_id ≠ some bid)
    ∧ (delete_invoice_batch db bid true).db.sales = db.sales
    ∧ (delete_invoice_batch db bid true).db.products
        = db.products.map (fun p =>
            (db.invoices.filter (fun i => i.batch_id = some bid)).foldl
              (fun q ln =>
                if q.id = ln.product_id then { q with stock := max (q.stock - ln.qty) 0 }
                else q) p) := by
  unfold delete_invoice_batch
  rw [if_neg hbid, if_neg hne, if_pos rfl]
  refine ⟨rfl, ?_, ?_, ?_⟩
  · show (db.invoices.filter (fun i => i.batch_id = some bid) |> revertStock db).invoices.filter
        (fun i => i.batch_id ≠ some bid) = _
    rw [revertStock_invoices db _]
  · exact revertStock_sales db _
  · exact revertStock_products db _ hnd

/-- Witness for C9: deleting batch "L1" with lines of qty 5, 10, 2 on
products with stocks 50, 8, 1 yields stocks 45, 0, 0 (floored at 0) and
leaves only the "L2" invoice row. -/
theorem delete_invoice_batch_witness :
    (delete_invoice_batch dbBatch "L1" true).ok = true
    ∧ (delete_invoice_batch dbBatch "L1" true).db.products
        = [{ prodA with stock := 45 }, { prodB with stock := 0 }, { prodC with stock := 0 }]
    ∧ (delete_invoice_batch dbBatch "L1" true).db.invoices
        = [⟨1, 9, 0, 0, none, none, some "L2", none, 0⟩] := by
  have h := delete_invoice_batch_reverses dbBatch "L1" (by decide) (by decide) (by decide)
  exact ⟨h.1, by rw [h.2.2.2]; decide, by rw [h.2.1]; decide⟩

/-- C10 (counterexample): product 1 of `dbDeps` is referenced by a sale
row, yet `delete_product` reports success and removes the product row —
refuting the claim that deletion fails with a dependents error. -/
theorem delete_product_ignores_dependents :
    dbDeps.sales.filter (fun s => s.product_id = 1) ≠ []
    ∧ (delete_product dbDeps 1).ok = true
    ∧ (delete_product dbDeps 1).db.findProduct 1 = none := by
  decide

/-- C10 (amended): `delete_product` deletes the product row
unconditionally and reports success, even when Sale or Invoice rows
reference the product; the sales and invoices tables themselves are
unchanged (their references are left orphaned) and other products are
retained. -/
theorem delete_product_unconditional (db : DB) (pid : Int) :
    (delete_product db pid).ok = true
    ∧ (delete_product db pid).db.findProduct pid = none
    ∧ (delete_product db pid).db.sales = db.sales
    ∧ (delete_product db pid).db.invoices = db.invoices
    ∧ ∀ p ∈ db.products, p.id ≠ pid → p ∈ (delete_product db pid).db.products := by
  refine ⟨rfl, ?_, rfl, rfl, ?_⟩
  · show (db.products.filter (fun p => p.id ≠ pid)).find? (fun p => p.id = pid) = none
    rw [List.find?_eq_none]
    intro p hp
    have h := (List.mem_filter.mp hp).2
    simp only [decide_eq_true_eq] at h ⊢
    exact h
  · intro p hp hne
    show p ∈ db.products.filter (fun p => p.id ≠ pid)
    exact List.mem_filter.mpr ⟨hp, by simpa using hne⟩

/-- Witness for C10 (amended): deleting product 1 of `dbDeps` succeeds
and keeps the unrelated product 2. -/
theorem delete_product_unconditional_witness :
    (delete_product dbDeps 1).ok = true ∧ prodB ∈ (delete_product dbDeps 1).db.products :=
  ⟨(delete_product_unconditional dbDeps 1).1,
   (delete_product_unconditional dbDeps 1).2.2.2.2 prodB (by decide) (by decide)⟩

end Billares
